import Mathlib

/-!
Shallow embedding of the expense-manager data-access layer
(src/Expense_manager.py) and proofs about its operations.

The sqlite database is modelled as an explicit state (`DB`): the two
tables as lists of rows plus the AUTOINCREMENT counters, and the
`CREATE TABLE IF NOT EXISTS` schema state as `Option TableDef` fields.
Each public operation of the Python module is translated into a pure
function on `DB`; since every function also reports its outcome on the
console with `print`, each state-changing operation returns an
`OpResult` carrying the return value, the new state, and the reports it
emitted (one `Report` constructor per `print` site in the source).
-/

namespace ExpenseManager

/-- A row of the `categories` table: `category_id INTEGER PRIMARY KEY
AUTOINCREMENT, name TEXT UNIQUE NOT NULL`. -/
structure CategoryRow where
  category_id : Nat
  name : String
deriving DecidableEq

/-- A row of the `expenses` table: `expense_id INTEGER PRIMARY KEY
AUTOINCREMENT, amount REAL NOT NULL, date TEXT NOT NULL, description TEXT,
category_id INTEGER REFERENCES categories(category_id)`.  Amounts are
modelled as rationals; dates as their `YYYY-MM-DD` strings (the source
relies on lexicographic order of those strings). -/
structure ExpenseRow where
  expense_id : Nat
  amount : ℚ
  date : String
  description : Option String
  category_id : Nat
deriving DecidableEq

/-- The definition (column list) of a table, as fixed by a
`CREATE TABLE` statement. -/
structure TableDef where
  columns : List String
deriving DecidableEq

/-- Columns of the `categories` table created by `setup_database_tables`. -/
def categoriesTableDef : TableDef :=
  ⟨["category_id", "name"]⟩

/-- Columns of the `expenses` table created by `setup_database_tables`. -/
def expensesTableDef : TableDef :=
  ⟨["expense_id", "amount", "date", "description", "category_id"]⟩

/-- The whole store: the schema state of the two tables (`none` = table
absent), their rows, and the next AUTOINCREMENT identifier of each. -/
structure DB where
  catTable : Option TableDef
  expTable : Option TableDef
  categories : List CategoryRow
  expenses : List ExpenseRow
  nextCategoryId : Nat
  nextExpenseId : Nat
deriving DecidableEq

/-- One console report per `print` site of the source, carrying the data
interpolated into the message. -/
inductive Report where
  | categoryAdded (name : String)
  | duplicateCategory (name : String)
  | recordCategoryNotFound (name : String)
  | expenseLogged (amount : ℚ) (category : String)
  | reviseCategoryNotFound (name : String)
  | noFieldsProvided
  | reviseExpenseNotFound (id : Nat)
  | expenseRevised (id : Nat)
  | removeExpenseNotFound (id : Nat)
  | expenseRemoved (id : Nat)
deriving DecidableEq

/-- Outcome of a state-changing operation: return value, resulting store,
and the console reports emitted. -/
structure OpResult (α : Type) where
  ret : α
  db : DB
  reports : List Report
deriving DecidableEq

/-- Embedding of `setup_database_tables`: `CREATE TABLE IF NOT EXISTS` for
each of the two tables — a missing table gets the fixed definition, an
existing table (and all rows) is left untouched. -/
def setup_database_tables (db : DB) : DB :=
  { db with
    catTable := some (db.catTable.getD categoriesTableDef),
    expTable := some (db.expTable.getD expensesTableDef) }

/-- Embedding of `SELECT category_id FROM categories WHERE name = ?`
followed by `fetchone()`: the id of the first row whose name matches. -/
def lookupCategoryId (db : DB) (name : String) : Option Nat :=
  (db.categories.find? (fun c => c.name == name)).map (fun c => c.category_id)

/-- Embedding of `addNewCategory`: `INSERT INTO categories (name) VALUES (?)`.
The UNIQUE constraint on `name` raises `IntegrityError` when a row with that
name exists; the source catches it and returns `None`.  On success the fresh
AUTOINCREMENT id (`cursor.lastrowid`) is returned. -/
def addNewCategory (categoryName : String) (db : DB) : OpResult (Option Nat) :=
  if db.categories.any (fun c => c.name == categoryName) then
    ⟨none, db, [Report.duplicateCategory categoryName]⟩
  else
    ⟨some db.nextCategoryId,
     { db with
       categories := db.categories ++ [⟨db.nextCategoryId, categoryName⟩],
       nextCategoryId := db.nextCategoryId + 1 },
     [Report.categoryAdded categoryName]⟩

/-- Embedding of `getAllCategories`:
`SELECT category_id, name FROM categories ORDER BY name`. -/
def getAllCategories (db : DB) : List (Nat × String) :=
  (db.categories.mergeSort (fun a b => decide (a.name ≤ b.name))).map
    (fun c => (c.category_id, c.name))

/-- Embedding of `record_new_spending`: resolve the category name first;
if it is missing, report and return `None` with no insertion; otherwise
insert the expense row and return its fresh id.  The Python default
`transaction_date=None` means "today", so the current date is an explicit
`today` parameter here. -/
def record_new_spending (money_spent : ℚ) (note_description : Option String)
    (cat_name : String) (transaction_date : Option String) (today : String)
    (db : DB) : OpResult (Option Nat) :=
  let d := transaction_date.getD today
  match lookupCategoryId db cat_name with
  | none => ⟨none, db, [Report.recordCategoryNotFound cat_name]⟩
  | some cid =>
    ⟨some db.nextExpenseId,
     { db with
       expenses :=
         db.expenses ++ [⟨db.nextExpenseId, money_spent, d, note_description, cid⟩],
       nextExpenseId := db.nextExpenseId + 1 },
     [Report.expenseLogged money_spent cat_name]⟩

/-- A row of the report produced by `viewAllExpenses`: the 5-tuple
`(expense_id, amount, date, description, category_name)` selected by its
join query. -/
structure ReportRow where
  expense_id : Nat
  amount : ℚ
  date : String
  description : Option String
  category_name : String
deriving DecidableEq

/-- The inner `JOIN categories c ON e.category_id = c.category_id` of
`viewAllExpenses`: each expense paired with the name of its category row
(`category_id` is the categories table's primary key, so at most one row
matches); expenses whose category id matches no row are dropped by the
inner join. -/
def joinRowsAux (cats : List CategoryRow) (exps : List ExpenseRow) : List ReportRow :=
  exps.filterMap (fun e =>
    (cats.find? (fun c => c.category_id == e.category_id)).map (fun c =>
      ⟨e.expense_id, e.amount, e.date, e.description, c.name⟩))

/-- The join of the current store's expenses with its categories. -/
def joinRows (db : DB) : List ReportRow :=
  joinRowsAux db.categories db.expenses

/-- The sort order `ORDER BY e.date DESC, e.expense_id DESC`: `a` may come
before `b` when `a`'s date is later, or dates are equal and `a`'s id is not
smaller. -/
def reportRowLe (a b : ReportRow) : Bool :=
  if a.date = b.date then decide (b.expense_id ≤ a.expense_id)
  else decide (b.date < a.date)

/-- Embedding of `viewAllExpenses`: the join, sorted by date descending then
expense id descending. -/
def viewAllExpenses (db : DB) : List ReportRow :=
  (joinRows db).mergeSort reportRowLe

/-- The effect of the dynamically built
`UPDATE expenses SET ... WHERE expense_id = ?` on one row: each column in
the SET list (one per supplied argument) is replaced, the others kept. -/
def applyRevision (amt : Option ℚ) (desc : Option String) (cid : Option Nat)
    (e : ExpenseRow) : ExpenseRow :=
  { e with
    amount := amt.getD e.amount,
    description := desc.elim e.description some,
    category_id := cid.getD e.category_id }

/-- The execute-and-check-rowcount tail of `reviseExpense`: `cursor.rowcount`
is the number of rows matching the WHERE clause; zero means the id was not
found and nothing changed, otherwise the matching rows are updated and
committed. -/
def reviseApply (id : Nat) (amt : Option ℚ) (desc : Option String)
    (cid : Option Nat) (db : DB) : OpResult Bool :=
  if db.expenses.countP (fun e => e.expense_id == id) = 0 then
    ⟨false, db, [Report.reviseExpenseNotFound id]⟩
  else
    ⟨true,
     { db with
       expenses := db.expenses.map (fun e =>
         if e.expense_id == id then applyRevision amt desc cid e else e) },
     [Report.expenseRevised id]⟩

/-- Embedding of `reviseExpense`: when a category name is supplied it is
resolved first and a failed lookup aborts the whole update; then, exactly
as in the source, an empty SET list (possible only when all three optional
arguments are absent) aborts; finally the UPDATE runs and its rowcount
decides between not-found failure and committed success. -/
def reviseExpense (expense_record_id : Nat) (new_amt : Option ℚ)
    (new_desc : Option String) (new_category_name : Option String)
    (db : DB) : OpResult Bool :=
  match new_category_name with
  | some cname =>
    match lookupCategoryId db cname with
    | none => ⟨false, db, [Report.reviseCategoryNotFound cname]⟩
    | some cid => reviseApply expense_record_id new_amt new_desc (some cid) db
  | none =>
    if new_amt.isNone && new_desc.isNone then
      ⟨false, db, [Report.noFieldsProvided]⟩
    else
      reviseApply expense_record_id new_amt new_desc none db

/-- Embedding of `removeExpense`: `DELETE FROM expenses WHERE expense_id = ?`;
rowcount zero means not found (failure, no change), otherwise the matching
rows are gone and the deletion is committed. -/
def removeExpense (expenseId : Nat) (db : DB) : OpResult Bool :=
  if db.expenses.countP (fun e => e.expense_id == expenseId) = 0 then
    ⟨false, db, [Report.removeExpenseNotFound expenseId]⟩
  else
    ⟨true,
     { db with
       expenses := db.expenses.filter (fun e => !(e.expense_id == expenseId)) },
     [Report.expenseRemoved expenseId]⟩

/-!
Connection-accounting model.  To settle the resource claim (release of the
sqlite connection on every exit path) the control-flow skeleton of every
public operation is embedded in a small effect monad: a statement executed
on the cursor consumes the next element of a failure oracle and may raise
(sqlite statements can raise, e.g. `IntegrityError` on a UNIQUE violation or
`OperationalError` on storage trouble — the source's own `except` clauses
anticipate this), `connect` and `close` track the number of open
connections, and `try/finally` and the two kinds of `except` clause of the
source (`except sqlite3.IntegrityError` and `except Exception`) are explicit
combinators.  Each `*Conn` program below mirrors, statement for statement
and branch for branch, where the corresponding Python function connects,
executes, closes and guards.
-/

/-- Outcome of one executed statement, drawn from the oracle. -/
inductive StmtRes where
  | ok
  | integrityError
  | otherError
deriving DecidableEq

/-- An in-flight database exception. -/
inductive DbExc where
  | integrity
  | other
deriving DecidableEq

/-- State threaded through a connection-skeleton run: the remaining failure
oracle and the number of currently open connections. -/
structure ConnState where
  oracle : List StmtRes
  openConns : Nat
deriving DecidableEq

/-- The effect monad of the connection skeletons: state plus exceptions. -/
def ConnM (α : Type) : Type :=
  ConnState → Except DbExc α × ConnState

instance : Monad ConnM where
  pure a := fun s => (Except.ok a, s)
  bind m f := fun s =>
    match m s with
    | (Except.ok a, s') => f a s'
    | (Except.error e, s') => (Except.error e, s')

/-- Model of `sqlite3.connect`: one more connection is open. -/
def connect : ConnM Unit :=
  fun s => (Except.ok (), ⟨s.oracle, s.openConns + 1⟩)

/-- Model of `conn.close()`: one fewer connection is open. -/
def closeConn : ConnM Unit :=
  fun s => (Except.ok (), ⟨s.oracle, s.openConns - 1⟩)

/-- Model of executing one statement (`cursor.execute` or `conn.commit`):
the next oracle element decides whether it succeeds or raises.  An
exhausted oracle means everything succeeds. -/
def execStmt : ConnM Unit :=
  fun s =>
    match s.oracle with
    | [] => (Except.ok (), s)
    | StmtRes.ok :: rest => (Except.ok (), ⟨rest, s.openConns⟩)
    | StmtRes.integrityError :: rest => (Except.error DbExc.integrity, ⟨rest, s.openConns⟩)
    | StmtRes.otherError :: rest => (Except.error DbExc.other, ⟨rest, s.openConns⟩)

/-- Model of `try: body finally: fin`: `fin` runs whether or not `body`
raised; an exception of `body` is then rethrown (one raised by `fin`
itself wins, as in Python). -/
def tryFinallyConn (body : ConnM α) (fin : ConnM Unit) : ConnM α :=
  fun s =>
    match body s with
    | (r, s') =>
      match fin s' with
      | (Except.ok _, s'') => (r, s'')
      | (Except.error e, s'') => (Except.error e, s'')

/-- Model of `try: body except sqlite3.IntegrityError: handler`: only an
integrity error is caught. -/
def tryCatchIntegrity (body : ConnM α) (handler : ConnM α) : ConnM α :=
  fun s =>
    match body s with
    | (Except.ok a, s') => (Except.ok a, s')
    | (Except.error DbExc.integrity, s') => handler s'
    | (Except.error DbExc.other, s') => (Except.error DbExc.other, s')

/-- Model of `try: body except Exception: handler`: every exception is
caught. -/
def tryCatchAll (body : ConnM α) (handler : ConnM α) : ConnM α :=
  fun s =>
    match body s with
    | (Except.ok a, s') => (Except.ok a, s')
    | (Except.error _, s') => handler s'

/-- Connection skeleton of `setup_database_tables`: connect, two CREATE
statements, commit, close — no try/finally anywhere. -/
def setupConn : ConnM Unit := do
  connect
  execStmt
  execStmt
  execStmt
  closeConn

/-- Connection skeleton of `addNewCategory`: connect, then INSERT and
commit inside `try ... except sqlite3.IntegrityError ... finally: close`. -/
def addNewCategoryConn : ConnM Unit := do
  connect
  tryFinallyConn (tryCatchIntegrity (do execStmt; execStmt) (pure ())) closeConn

/-- Connection skeleton of `getAllCategories`: connect, SELECT, close —
no try/finally. -/
def getAllCategoriesConn : ConnM Unit := do
  connect
  execStmt
  closeConn

/-- Connection skeleton of `record_new_spending`: connect, then the
category SELECT outside any try; on a missing category an explicit
close-and-return, otherwise INSERT and commit inside
`try ... except Exception ... finally: close`. -/
def recordNewSpendingConn (categoryFound : Bool) : ConnM Unit := do
  connect
  execStmt
  if categoryFound then
    tryFinallyConn (tryCatchAll (do execStmt; execStmt) (pure ())) closeConn
  else
    closeConn

/-- Connection skeleton of `viewAllExpenses`: connect, SELECT, close —
no try/finally. -/
def viewAllExpensesConn : ConnM Unit := do
  connect
  execStmt
  closeConn

/-- The tail of `reviseExpense` after category resolution: explicit
close-and-return when the SET list is empty, otherwise UPDATE (and commit
unless rowcount was zero) inside `try ... except Exception ... finally:
close`. -/
def reviseUpdatePhase (anyFields rowcountZero : Bool) : ConnM Unit :=
  if anyFields then
    tryFinallyConn
      (tryCatchAll (do execStmt; if rowcountZero then pure () else execStmt) (pure ()))
      closeConn
  else
    closeConn

/-- Connection skeleton of `reviseExpense`: connect; when a category name
is supplied, its SELECT runs outside any try, with an explicit
close-and-return when the lookup finds nothing; then the update phase. -/
def reviseExpenseConn (catProvided catFound anyFields rowcountZero : Bool) :
    ConnM Unit := do
  connect
  if catProvided then do
    execStmt
    if catFound then reviseUpdatePhase anyFields rowcountZero
    else closeConn
  else
    reviseUpdatePhase anyFields rowcountZero

/-- Connection skeleton of `removeExpense`: connect, then DELETE (and
commit unless rowcount was zero) inside `try ... except Exception ...
finally: close`. -/
def removeExpenseConn (rowcountZero : Bool) : ConnM Unit := do
  connect
  tryFinallyConn
    (tryCatchAll (do execStmt; if rowcountZero then pure () else execStmt) (pure ()))
    closeConn

/-- A connection skeleton releases its connection on every exit path when,
from every start state, it ends with as many open connections as it
began with. -/
def releasesConnAlways (m : ConnM Unit) : Prop :=
  ∀ (o : List StmtRes) (n : Nat), ((m ⟨o, n⟩).2).openConns = n

/-- A small concrete store used by the witnesses: one category `"Food"`
(id 1) and one expense of 25.50 recorded under it, with both tables
present and the counters past the used ids. -/
def sampleDB : DB :=
  ⟨some categoriesTableDef, some expensesTableDef,
   [⟨1, "Food"⟩],
   [⟨1, 51 / 2, "2023-11-20", some "Big weekend food shop", 1⟩],
   2, 2⟩

/-! ## Claims -/

/-- Claim C1: on any store with no category row named `cat_name`,
`record_new_spending` returns `None`, reports the missing category, and
leaves the whole store (in particular the expenses table) unchanged; no
insertion happens. -/
theorem c1_record_unknown_category_no_write (db : DB) (amt : ℚ)
    (desc : Option String) (cname : String) (tdate : Option String)
    (today : String) (h : ∀ c ∈ db.categories, c.name ≠ cname) :
    record_new_spending amt desc cname tdate today db =
      ⟨none, db, [Report.recordCategoryNotFound cname]⟩ := by
  have hfind : db.categories.find? (fun c => c.name == cname) = none := by
    rw [List.find?_eq_none]
    intro c hc
    simpa using h c hc
  simp [record_new_spending, lookupCategoryId, hfind]

/-- Witness for C1 at a concrete store without an `"Electronics"` category. -/
theorem c1_record_unknown_category_no_write_witness :
    (∀ c ∈ sampleDB.categories, c.name ≠ "Electronics") ∧
    record_new_spending 500 (some "New gaming PC") "Electronics"
        (some "2023-11-22") "2023-11-22" sampleDB =
      ⟨none, sampleDB, [Report.recordCategoryNotFound "Electronics"]⟩ :=
  ⟨by decide,
   c1_record_unknown_category_no_write sampleDB 500 (some "New gaming PC")
     "Electronics" (some "2023-11-22") "2023-11-22" (by decide)⟩

/-- Claim C2: on any store with no category row named `cname`,
`reviseExpense` with that category name supplied returns failure and
commits no field change at all — the store is returned unchanged, whatever
other arguments (such as a new amount) were supplied. -/
theorem c2_revise_unknown_category_all_or_nothing (db : DB) (id : Nat)
    (amt : Option ℚ) (desc : Option String) (cname : String)
    (h : ∀ c ∈ db.categories, c.name ≠ cname) :
    reviseExpense id amt desc (some cname) db =
      ⟨false, db, [Report.reviseCategoryNotFound cname]⟩ := by
  have hfind : db.categories.find? (fun c => c.name == cname) = none := by
    rw [List.find?_eq_none]
    intro c hc
    simpa using h c hc
  simp [reviseExpense, lookupCategoryId, hfind]

/-- Witness for C2: revising the sample store's expense 1 with a new amount
and the nonexistent category `"Nonexistent"` fails and changes nothing. -/
theorem c2_revise_unknown_category_all_or_nothing_witness :
    (∀ c ∈ sampleDB.categories, c.name ≠ "Nonexistent") ∧
    reviseExpense 1 (some (9999 / 100)) none (some "Nonexistent") sampleDB =
      ⟨false, sampleDB, [Report.reviseCategoryNotFound "Nonexistent"]⟩ :=
  ⟨by decide,
   c2_revise_unknown_category_all_or_nothing sampleDB 1 (some (9999 / 100))
     none "Nonexistent" (by decide)⟩

/-- Claim C9: in `reviseExpense` an unresolvable category name takes
precedence over the expense id: for an id that does match a row (`idA`) and
an id that matches none (`idB`), the call fails with the very same
category-not-found outcome and report, leaving the store unchanged. -/
theorem c9_category_check_precedes_id_check (db : DB) (idA idB : Nat)
    (amt : Option ℚ) (desc : Option String) (cname : String)
    (hcat : ∀ c ∈ db.categories, c.name ≠ cname)
    (hA : ∃ e ∈ db.expenses, e.expense_id = idA)
    (hB : ∀ e ∈ db.expenses, e.expense_id ≠ idB) :
    reviseExpense idA amt desc (some cname) db =
        ⟨false, db, [Report.reviseCategoryNotFound cname]⟩ ∧
    reviseExpense idB amt desc (some cname) db =
        ⟨false, db, [Report.reviseCategoryNotFound cname]⟩ := by
  have hfind : db.categories.find? (fun c => c.name == cname) = none := by
    rw [List.find?_eq_none]
    intro c hc
    simpa using hcat c hc
  constructor
  · simp [reviseExpense, lookupCategoryId, hfind]
  · simp [reviseExpense, lookupCategoryId, hfind]

/-- Witness for C9: expense id 1 exists in the sample store and id 999 does
not, yet both revisions fail identically on the unknown category. -/
theorem c9_category_check_precedes_id_check_witness :
    ((∀ c ∈ sampleDB.categories, c.name ≠ "Nonexistent") ∧
     (∃ e ∈ sampleDB.expenses, e.expense_id = 1) ∧
     (∀ e ∈ sampleDB.expenses, e.expense_id ≠ 999)) ∧
    (reviseExpense 1 (some 7) none (some "Nonexistent") sampleDB =
        ⟨false, sampleDB, [Report.reviseCategoryNotFound "Nonexistent"]⟩ ∧
     reviseExpense 999 (some 7) none (some "Nonexistent") sampleDB =
        ⟨false, sampleDB, [Report.reviseCategoryNotFound "Nonexistent"]⟩) :=
  ⟨⟨by decide, by decide, by decide⟩,
   c9_category_check_precedes_id_check sampleDB 1 999 (some 7) none
     "Nonexistent" (by decide) (by decide) (by decide)⟩

/-- Claim C5: when exactly one category row carries the supplied name,
`addNewCategory` returns `None` (distinguishable from a real identifier),
reports the duplicate, leaves the store unchanged and in particular the
count of rows with that name stays one (the `IntegrityError` of the UNIQUE
constraint is caught inside the operation and never propagates — the
embedding is a total function); on a store without that name it appends a
new category row and returns its fresh identifier. -/
theorem c5_add_category_unique (db : DB) (n : String) :
    (db.categories.countP (fun c => c.name == n) = 1 →
      addNewCategory n db = ⟨none, db, [Report.duplicateCategory n]⟩ ∧
      ((addNewCategory n db).db.categories.countP (fun c => c.name == n) = 1)) ∧
    ((∀ c ∈ db.categories, c.name ≠ n) →
      addNewCategory n db =
        ⟨some db.nextCategoryId,
         { db with
           categories := db.categories ++ [⟨db.nextCategoryId, n⟩],
           nextCategoryId := db.nextCategoryId + 1 },
         [Report.categoryAdded n]⟩) := by
  constructor
  · intro h1
    have hany : db.categories.any (fun c => c.name == n) = true := by
      rw [List.any_eq_true]
      exact List.countP_pos_iff.mp (by omega)
    constructor
    · simp [addNewCategory, hany]
    · simp [addNewCategory, hany, h1]
  · intro h
    have hany : db.categories.any (fun c => c.name == n) = false := by
      rw [List.any_eq_false]
      intro c hc
      simpa using h c hc
    simp [addNewCategory, hany]

/-- Witness for C5: adding `"Food"` to the sample store (which has exactly
one `"Food"` row) is refused with `None`, and adding the fresh name
`"Transport"` succeeds with the fresh identifier 2. -/
theorem c5_add_category_unique_witness :
    (sampleDB.categories.countP (fun c => c.name == "Food") = 1 ∧
     (∀ c ∈ sampleDB.categories, c.name ≠ "Transport")) ∧
    (addNewCategory "Food" sampleDB =
        ⟨none, sampleDB, [Report.duplicateCategory "Food"]⟩ ∧
     addNewCategory "Transport" sampleDB =
        ⟨some sampleDB.nextCategoryId,
         { sampleDB with
           categories := sampleDB.categories ++ [⟨sampleDB.nextCategoryId, "Transport"⟩],
           nextCategoryId := sampleDB.nextCategoryId + 1 },
         [Report.categoryAdded "Transport"]⟩) :=
  ⟨⟨by decide, by decide⟩,
   ⟨((c5_add_category_unique sampleDB "Food").1 (by decide)).1,
    (c5_add_category_unique sampleDB "Transport").2 (by decide)⟩⟩

/-- Claim C10: `addNewCategory` does no non-emptiness validation — on a
store with no category named `""` it inserts a row whose name is the empty
string and returns a fresh real identifier, not a failure. -/
theorem c10_add_category_empty_name_accepted (db : DB)
    (h : ∀ c ∈ db.categories, c.name ≠ "") :
    addNewCategory "" db =
      ⟨some db.nextCategoryId,
       { db with
         categories := db.categories ++ [⟨db.nextCategoryId, ""⟩],
         nextCategoryId := db.nextCategoryId + 1 },
       [Report.categoryAdded ""]⟩ := by
  have hany : db.categories.any (fun c => c.name == "") = false := by
    rw [List.any_eq_false]
    intro c hc
    simpa using h c hc
  simp [addNewCategory, hany]

/-- Witness for C10 at the sample store (whose only category is `"Food"`). -/
theorem c10_add_category_empty_name_accepted_witness :
    (∀ c ∈ sampleDB.categories, c.name ≠ "") ∧
    addNewCategory "" sampleDB =
      ⟨some sampleDB.nextCategoryId,
       { sampleDB with
         categories := sampleDB.categories ++ [⟨sampleDB.nextCategoryId, ""⟩],
         nextCategoryId := sampleDB.nextCategoryId + 1 },
       [Report.categoryAdded ""]⟩ :=
  ⟨by decide, c10_add_category_empty_name_accepted sampleDB (by decide)⟩

/-- Claim C7: `removeExpense` on an id with no matching row fails and
leaves the store unchanged; consequently a successful removal followed by a
second removal of the same id makes the second fail with no state change —
the deleted row is never resurrected. -/
theorem c7_remove_missing_id_and_finality (db : DB) (id : Nat) :
    ((∀ e ∈ db.expenses, e.expense_id ≠ id) →
      removeExpense id db = ⟨false, db, [Report.removeExpenseNotFound id]⟩) ∧
    (∀ db' reps, removeExpense id db = ⟨true, db', reps⟩ →
      removeExpense id db' = ⟨false, db', [Report.removeExpenseNotFound id]⟩) := by
  constructor
  · intro h
    have h0 : db.expenses.countP (fun e => e.expense_id == id) = 0 := by
      rw [List.countP_eq_zero]
      intro e he
      simpa using h e he
    simp [removeExpense, h0]
  · intro db' reps hEq
    by_cases h0 : db.expenses.countP (fun e => e.expense_id == id) = 0
    · rw [removeExpense, if_pos h0] at hEq
      simp at hEq
    · rw [removeExpense, if_neg h0] at hEq
      injection hEq with h1 h2 h3
      subst h2
      have hz : (db.expenses.filter (fun e => !(e.expense_id == id))).countP
          (fun e => e.expense_id == id) = 0 := by
        rw [List.countP_eq_zero]
        intro e he
        have := (List.mem_filter.mp he).2
        simpa using this
      simp [removeExpense, hz]

/-- Witness for C7: removing id 999 from the sample store fails with no
change, and after the successful removal of id 1 a second removal of id 1
fails with no change. -/
theorem c7_remove_missing_id_and_finality_witness :
    ((∀ e ∈ sampleDB.expenses, e.expense_id ≠ 999) →
      removeExpense 999 sampleDB =
        ⟨false, sampleDB, [Report.removeExpenseNotFound 999]⟩) ∧
    (removeExpense 1 sampleDB =
        ⟨true, { sampleDB with expenses := [] }, [Report.expenseRemoved 1]⟩ →
      removeExpense 1 { sampleDB with expenses := [] } =
        ⟨false, { sampleDB with expenses := [] },
         [Report.removeExpenseNotFound 1]⟩) :=
  ⟨fun h => (c7_remove_missing_id_and_finality sampleDB 999).1 h,
   fun h => (c7_remove_missing_id_and_finality sampleDB 1).2
     { sampleDB with expenses := [] } [Report.expenseRemoved 1] h⟩

/-- Claim C8: schema initialization is idempotent — running it twice from
any state equals running it once, and when the tables already exist their
definitions and all category and expense rows are unchanged. -/
theorem c8_setup_idempotent (db : DB) :
    setup_database_tables (setup_database_tables db) = setup_database_tables db ∧
    (setup_database_tables db).categories = db.categories ∧
    (setup_database_tables db).expenses = db.expenses ∧
    (∀ t, db.catTable = some t → (setup_database_tables db).catTable = some t) ∧
    (∀ t, db.expTable = some t → (setup_database_tables db).expTable = some t) := by
  refine ⟨?_, rfl, rfl, ?_, ?_⟩
  · simp [setup_database_tables]
  · intro t ht
    simp [setup_database_tables, ht]
  · intro t ht
    simp [setup_database_tables, ht]

/-- Witness for C8 at the sample store, whose tables both exist. -/
theorem c8_setup_idempotent_witness :
    setup_database_tables (setup_database_tables sampleDB) =
        setup_database_tables sampleDB ∧
    (setup_database_tables sampleDB).catTable = some categoriesTableDef ∧
    (setup_database_tables sampleDB).expTable = some expensesTableDef :=
  ⟨(c8_setup_idempotent sampleDB).1,
   (c8_setup_idempotent sampleDB).2.2.2.1 categoriesTableDef rfl,
   (c8_setup_idempotent sampleDB).2.2.2.2 expensesTableDef rfl⟩

/-- Claim C4: on a store containing a row with the given id, `reviseExpense`
with only a new amount supplied succeeds and changes exactly that row's
amount field — its date, description and category reference, every other
expense row, and the categories table are all unchanged; likewise a
supplied description replaces only the description, and a supplied
(resolvable) category name replaces only the category reference. -/
theorem c4_partial_update_isolation (db : DB) (id : Nat) (amt : ℚ)
    (d : String) (cname : String) (c : CategoryRow)
    (h : ∃ e ∈ db.expenses, e.expense_id = id) :
    reviseExpense id (some amt) none none db =
      ⟨true,
       { db with
         expenses := db.expenses.map (fun e =>
           if e.expense_id == id then { e with amount := amt } else e) },
       [Report.expenseRevised id]⟩ ∧
    reviseExpense id none (some d) none db =
      ⟨true,
       { db with
         expenses := db.expenses.map (fun e =>
           if e.expense_id == id then { e with description := some d } else e) },
       [Report.expenseRevised id]⟩ ∧
    (db.categories.find? (fun x => x.name == cname) = some c →
      reviseExpense id none none (some cname) db =
        ⟨true,
         { db with
           expenses := db.expenses.map (fun e =>
             if e.expense_id == id then { e with category_id := c.category_id }
             else e) },
         [Report.expenseRevised id]⟩) := by
  have hcount : ¬ db.expenses.countP (fun e => e.expense_id == id) = 0 := by
    rw [List.countP_eq_zero]
    push_neg
    obtain ⟨e, he, hid⟩ := h
    exact ⟨e, he, by simpa using hid⟩
  refine ⟨?_, ?_, ?_⟩
  · rw [reviseExpense]
    simp only [Option.isNone_some, Bool.false_and, Bool.and_false, if_neg]
    rw [reviseApply, if_neg hcount]
    simp [applyRevision]
  · rw [reviseExpense]
    simp only [Option.isNone_some, Bool.and_false, Bool.false_and, if_neg]
    rw [reviseApply, if_neg hcount]
    simp [applyRevision]
  · intro hfind
    have hl : lookupCategoryId db cname = some c.category_id := by
      simp [lookupCategoryId, hfind]
    rw [reviseExpense]
    simp only [hl]
    rw [reviseApply, if_neg hcount]
    simp [applyRevision]

/-- The first statement the oracle will answer succeeds (an exhausted
oracle answers success). -/
def headOk (o : List StmtRes) : Bool :=
  match o with
  | [] => true
  | StmtRes.ok :: _ => true
  | StmtRes.integrityError :: _ => false
  | StmtRes.otherError :: _ => false

/-- Running a bound computation unfolds to running the first part and, on
success, feeding its value to the second. -/
theorem connBind_apply {α β : Type} (m : ConnM α) (f : α → ConnM β)
    (s : ConnState) :
    (m >>= f) s =
      match m s with
      | (Except.ok a, s') => f a s'
      | (Except.error e, s') => (Except.error e, s') := rfl

/-- A computation that never changes the number of open connections. -/
def PreservesOpen {α : Type} (m : ConnM α) : Prop :=
  ∀ s : ConnState, ((m s).2).openConns = s.openConns

theorem preservesOpen_pure {α : Type} (a : α) :
    PreservesOpen (pure a : ConnM α) :=
  fun _ => rfl

theorem preservesOpen_execStmt : PreservesOpen execStmt := by
  intro s
  rcases s with ⟨o, n⟩
  rcases o with _ | ⟨r, rest⟩
  · rfl
  · cases r <;> rfl

theorem preservesOpen_bind {α β : Type} {m : ConnM α} {f : α → ConnM β}
    (hm : PreservesOpen m) (hf : ∀ a, PreservesOpen (f a)) :
    PreservesOpen (m >>= f) := by
  intro s
  rw [connBind_apply]
  have h1 := hm s
  rcases hp : m s with ⟨r, s'⟩
  rw [hp] at h1
  cases r with
  | ok a => exact (hf a s').trans h1
  | error e => exact h1

theorem preservesOpen_ite {b : Bool} {m1 m2 : ConnM Unit}
    (h1 : PreservesOpen m1) (h2 : PreservesOpen m2) :
    PreservesOpen (if b then m1 else m2) := by
  cases b
  · simpa using h2
  · simpa using h1

theorem preservesOpen_tryCatchIntegrity {α : Type} {body handler : ConnM α}
    (hb : PreservesOpen body) (hh : PreservesOpen handler) :
    PreservesOpen (tryCatchIntegrity body handler) := by
  intro s
  have h1 := hb s
  rcases hp : body s with ⟨r, s'⟩
  rw [hp] at h1
  simp only [tryCatchIntegrity, hp]
  cases r with
  | ok a => exact h1
  | error e =>
    cases e with
    | integrity => exact (hh s').trans h1
    | other => exact h1

theorem preservesOpen_tryCatchAll {α : Type} {body handler : ConnM α}
    (hb : PreservesOpen body) (hh : PreservesOpen handler) :
    PreservesOpen (tryCatchAll body handler) := by
  intro s
  have h1 := hb s
  rcases hp : body s with ⟨r, s'⟩
  rw [hp] at h1
  simp only [tryCatchAll, hp]
  cases r with
  | ok a => exact h1
  | error e => exact (hh s').trans h1

/-- A computation whose every path closes exactly one connection. -/
def ClosesOne (m : ConnM Unit) : Prop :=
  ∀ s : ConnState, ((m s).2).openConns = s.openConns - 1

theorem closesOne_closeConn : ClosesOne closeConn :=
  fun _ => rfl

theorem closesOne_tryFinallyClose {body : ConnM Unit}
    (hb : PreservesOpen body) :
    ClosesOne (tryFinallyConn body closeConn) := by
  intro s
  have h1 := hb s
  rcases hp : body s with ⟨r, s'⟩
  rw [hp] at h1
  simp only [tryFinallyConn, hp, closeConn]
  rw [h1]

theorem closesOne_reviseUpdatePhase (a rz : Bool) :
    ClosesOne (reviseUpdatePhase a rz) := by
  cases a
  · exact closesOne_closeConn
  · exact closesOne_tryFinallyClose
      (preservesOpen_tryCatchAll
        (preservesOpen_bind preservesOpen_execStmt
          (fun _ => preservesOpen_ite (preservesOpen_pure ()) preservesOpen_execStmt))
        (preservesOpen_pure ()))

/-- Connecting and then running a computation that always closes one
connection is balanced on every oracle. -/
theorem releases_of_connect_closesOne {k : ConnM Unit} (hk : ClosesOne k) :
    releasesConnAlways (connect >>= fun _ => k) := by
  intro o n
  rw [connBind_apply]
  simp only [connect]
  exact (hk ⟨o, n + 1⟩).trans (by simp)

theorem conn_addNewCategory_balanced : releasesConnAlways addNewCategoryConn :=
  releases_of_connect_closesOne
    (closesOne_tryFinallyClose
      (preservesOpen_tryCatchIntegrity
        (preservesOpen_bind preservesOpen_execStmt (fun _ => preservesOpen_execStmt))
        (preservesOpen_pure ())))

theorem conn_removeExpense_balanced (rz : Bool) :
    releasesConnAlways (removeExpenseConn rz) :=
  releases_of_connect_closesOne
    (closesOne_tryFinallyClose
      (preservesOpen_tryCatchAll
        (preservesOpen_bind preservesOpen_execStmt
          (fun _ => preservesOpen_ite (preservesOpen_pure ()) preservesOpen_execStmt))
        (preservesOpen_pure ())))

theorem conn_revise_noCat_balanced (cf a rz : Bool) :
    releasesConnAlways (reviseExpenseConn false cf a rz) :=
  releases_of_connect_closesOne (closesOne_reviseUpdatePhase a rz)

theorem conn_record_headOk_balanced (cf : Bool) (o : List StmtRes) (n : Nat)
    (h : headOk o = true) :
    ((recordNewSpendingConn cf ⟨o, n⟩).2).openConns = n := by
  have hk : ClosesOne
      (if cf then
        tryFinallyConn (tryCatchAll (do execStmt; execStmt) (pure ())) closeConn
      else closeConn) := by
    cases cf
    · exact closesOne_closeConn
    · exact closesOne_tryFinallyClose
        (preservesOpen_tryCatchAll
          (preservesOpen_bind preservesOpen_execStmt (fun _ => preservesOpen_execStmt))
          (preservesOpen_pure ()))
  rcases o with _ | ⟨r, rest⟩
  · simp only [recordNewSpendingConn, connBind_apply, connect, execStmt]
    exact (hk ⟨[], n + 1⟩).trans (by simp)
  · cases r with
    | ok =>
      simp only [recordNewSpendingConn, connBind_apply, connect, execStmt]
      exact (hk ⟨rest, n + 1⟩).trans (by simp)
    | integrityError => simp [headOk] at h
    | otherError => simp [headOk] at h

theorem conn_revise_headOk_balanced (cf a rz : Bool) (o : List StmtRes)
    (n : Nat) (h : headOk o = true) :
    ((reviseExpenseConn true cf a rz ⟨o, n⟩).2).openConns = n := by
  have hk : ClosesOne (if cf then reviseUpdatePhase a rz else closeConn) := by
    cases cf
    · exact closesOne_closeConn
    · exact closesOne_reviseUpdatePhase a rz
  rcases o with _ | ⟨r, rest⟩
  · simp only [reviseExpenseConn, connBind_apply, connect, execStmt, if_true]
    exact (hk ⟨[], n + 1⟩).trans (by simp)
  · cases r with
    | ok =>
      simp only [reviseExpenseConn, connBind_apply, connect, execStmt, if_true]
      exact (hk ⟨rest, n + 1⟩).trans (by simp)
    | integrityError => simp [headOk] at h
    | otherError => simp [headOk] at h

theorem conn_setup_ok_balanced (o : List StmtRes) (n : Nat)
    (h : (setupConn ⟨o, n⟩).1.isOk = true) :
    ((setupConn ⟨o, n⟩).2).openConns = n := by
  rcases o with _ | ⟨r1, _ | ⟨r2, _ | ⟨r3, rest⟩⟩⟩
  · simp [setupConn, connBind_apply, connect, execStmt, closeConn]
  · cases r1 <;>
      simp_all [setupConn, connBind_apply, connect, execStmt, closeConn,
        Except.isOk, Except.toBool]
  · cases r1 <;> cases r2 <;>
      simp_all [setupConn, connBind_apply, connect, execStmt, closeConn,
        Except.isOk, Except.toBool]
  · cases r1 <;> cases r2 <;> cases r3 <;>
      simp_all [setupConn, connBind_apply, connect, execStmt, closeConn,
        Except.isOk, Except.toBool]

theorem conn_getAll_ok_balanced (o : List StmtRes) (n : Nat)
    (h : (getAllCategoriesConn ⟨o, n⟩).1.isOk = true) :
    ((getAllCategoriesConn ⟨o, n⟩).2).openConns = n := by
  rcases o with _ | ⟨r1, rest⟩
  · simp [getAllCategoriesConn, connBind_apply, connect, execStmt, closeConn]
  · cases r1 <;>
      simp_all [getAllCategoriesConn, connBind_apply, connect, execStmt,
        closeConn, Except.isOk, Except.toBool]

theorem conn_viewAll_ok_balanced (o : List StmtRes) (n : Nat)
    (h : (viewAllExpensesConn ⟨o, n⟩).1.isOk = true) :
    ((viewAllExpensesConn ⟨o, n⟩).2).openConns = n := by
  rcases o with _ | ⟨r1, rest⟩
  · simp [viewAllExpensesConn, connBind_apply, connect, execStmt, closeConn]
  · cases r1 <;>
      simp_all [viewAllExpensesConn, connBind_apply, connect, execStmt,
        closeConn, Except.isOk, Except.toBool]

theorem conn_record_ok_balanced (cf : Bool) (o : List StmtRes) (n : Nat)
    (h : (recordNewSpendingConn cf ⟨o, n⟩).1.isOk = true) :
    ((recordNewSpendingConn cf ⟨o, n⟩).2).openConns = n := by
  rcases o with _ | ⟨r, rest⟩
  · exact conn_record_headOk_balanced cf [] n (by simp [headOk])
  · cases r with
    | ok => exact conn_record_headOk_balanced cf (StmtRes.ok :: rest) n (by simp [headOk])
    | integrityError =>
      exfalso
      revert h
      simp [recordNewSpendingConn, connBind_apply, connect, execStmt,
        Except.isOk, Except.toBool]
    | otherError =>
      exfalso
      revert h
      simp [recordNewSpendingConn, connBind_apply, connect, execStmt,
        Except.isOk, Except.toBool]

theorem conn_revise_ok_balanced (cp cf a rz : Bool) (o : List StmtRes) (n : Nat)
    (h : (reviseExpenseConn cp cf a rz ⟨o, n⟩).1.isOk = true) :
    ((reviseExpenseConn cp cf a rz ⟨o, n⟩).2).openConns = n := by
  cases cp
  · exact conn_revise_noCat_balanced cf a rz o n
  · rcases o with _ | ⟨r, rest⟩
    · exact conn_revise_headOk_balanced cf a rz [] n (by simp [headOk])
    · cases r with
      | ok =>
        exact conn_revise_headOk_balanced cf a rz (StmtRes.ok :: rest) n
          (by simp [headOk])
      | integrityError =>
        exfalso
        revert h
        simp [reviseExpenseConn, connBind_apply, connect, execStmt,
          Except.isOk, Except.toBool]
      | otherError =>
        exfalso
        revert h
        simp [reviseExpenseConn, connBind_apply, connect, execStmt,
          Except.isOk, Except.toBool]

/-- Counterexample to claim C3 as stated: when the single SELECT of
`getAllCategories` raises (it has no try/finally), the function propagates
the exception with the connection still open — one connection leaks from a
zero-open start — so it is not the case that every operation releases its
connection on every exit path. -/
theorem c3_counterexample_connection_leak :
    ((getAllCategoriesConn ⟨[StmtRes.otherError], 0⟩).2).openConns = 1 ∧
    ¬ (releasesConnAlways setupConn ∧
       releasesConnAlways addNewCategoryConn ∧
       releasesConnAlways getAllCategoriesConn ∧
       (∀ cf, releasesConnAlways (recordNewSpendingConn cf)) ∧
       releasesConnAlways viewAllExpensesConn ∧
       (∀ cp cf a rz, releasesConnAlways (reviseExpenseConn cp cf a rz)) ∧
       (∀ rz, releasesConnAlways (removeExpenseConn rz))) := by
  constructor
  · rfl
  · intro hcl
    have h := hcl.2.2.1 [StmtRes.otherError] 0
    simp [getAllCategoriesConn, connBind_apply, connect, execStmt, closeConn] at h

/-- Claim C3 (amended): every operation that returns to its caller without
propagating a storage exception has released its connection (all success
and handled-failure returns close it); on exception-propagating paths the
release is guaranteed exactly where the source has `finally: close` —
unconditionally for `addNewCategory` and `removeExpense`, for
`record_new_spending` and a category-supplying `reviseExpense` once their
unguarded category-lookup statement has succeeded, and unconditionally for
`reviseExpense` without a category argument — but not for the schema
setup, the category listing, or the expense listing. -/
theorem c3_connection_release_amended :
    (∀ o n, (setupConn ⟨o, n⟩).1.isOk = true →
      ((setupConn ⟨o, n⟩).2).openConns = n) ∧
    (∀ o n, (getAllCategoriesConn ⟨o, n⟩).1.isOk = true →
      ((getAllCategoriesConn ⟨o, n⟩).2).openConns = n) ∧
    (∀ o n, (viewAllExpensesConn ⟨o, n⟩).1.isOk = true →
      ((viewAllExpensesConn ⟨o, n⟩).2).openConns = n) ∧
    (∀ cf o n, (recordNewSpendingConn cf ⟨o, n⟩).1.isOk = true →
      ((recordNewSpendingConn cf ⟨o, n⟩).2).openConns = n) ∧
    (∀ cp cf a rz o n, (reviseExpenseConn cp cf a rz ⟨o, n⟩).1.isOk = true →
      ((reviseExpenseConn cp cf a rz ⟨o, n⟩).2).openConns = n) ∧
    releasesConnAlways addNewCategoryConn ∧
    (∀ rz, releasesConnAlways (removeExpenseConn rz)) ∧
    (∀ cf o n, headOk o = true →
      ((recordNewSpendingConn cf ⟨o, n⟩).2).openConns = n) ∧
    (∀ cf a rz o n, headOk o = true →
      ((reviseExpenseConn true cf a rz ⟨o, n⟩).2).openConns = n) ∧
    (∀ cf a rz, releasesConnAlways (reviseExpenseConn false cf a rz)) :=
  ⟨conn_setup_ok_balanced, conn_getAll_ok_balanced, conn_viewAll_ok_balanced,
   conn_record_ok_balanced, conn_revise_ok_balanced,
   conn_addNewCategory_balanced, conn_removeExpense_balanced,
   conn_record_headOk_balanced, conn_revise_headOk_balanced,
   conn_revise_noCat_balanced⟩

/-- Witness for the amended C3 at concrete oracles: an all-success run of
the schema setup is balanced; `addNewCategory` is balanced even when its
INSERT raises an `IntegrityError`; `removeExpense` is balanced even when
its DELETE raises; a failing `record_new_spending` whose SELECT succeeded
is balanced; a category-supplying `reviseExpense` whose lookup succeeded is
balanced. -/
theorem c3_connection_release_amended_witness :
    ((setupConn ⟨[], 0⟩).1.isOk = true ∧
     headOk [StmtRes.ok, StmtRes.otherError] = true) ∧
    (((setupConn ⟨[], 0⟩).2).openConns = 0 ∧
     ((addNewCategoryConn ⟨[StmtRes.integrityError], 0⟩).2).openConns = 0 ∧
     ((removeExpenseConn false ⟨[StmtRes.otherError], 0⟩).2).openConns = 0 ∧
     ((recordNewSpendingConn true ⟨[StmtRes.ok, StmtRes.otherError], 0⟩).2).openConns = 0 ∧
     ((reviseExpenseConn true true true false
         ⟨[StmtRes.ok, StmtRes.otherError], 0⟩).2).openConns = 0) := by
  obtain ⟨h1, h2, h3, h4, h5, h6, h7, h8, h9, h10⟩ := c3_connection_release_amended
  exact ⟨⟨by decide, by decide⟩,
    h1 [] 0 (by decide),
    h6 [StmtRes.integrityError] 0,
    h7 false [StmtRes.otherError] 0,
    h8 true [StmtRes.ok, StmtRes.otherError] 0 (by decide),
    h9 true true false [StmtRes.ok, StmtRes.otherError] 0 (by decide)⟩

/-- Transitivity of the report sort order. -/
theorem reportRowLe_trans (a b c : ReportRow) (hab : reportRowLe a b = true)
    (hbc : reportRowLe b c = true) : reportRowLe a c = true := by
  unfold reportRowLe at hab hbc ⊢
  by_cases h1 : a.date = b.date <;> by_cases h2 : b.date = c.date
  · rw [if_pos h1] at hab
    rw [if_pos h2] at hbc
    rw [if_pos (h1.trans h2)]
    simp only [decide_eq_true_eq] at hab hbc ⊢
    omega
  · rw [if_pos h1] at hab
    rw [if_neg h2] at hbc
    simp only [decide_eq_true_eq] at hbc
    have hca : c.date < a.date := h1 ▸ hbc
    rw [if_neg (ne_of_gt hca)]
    simpa using hca
  · rw [if_neg h1] at hab
    rw [if_pos h2] at hbc
    simp only [decide_eq_true_eq] at hab
    have hca : c.date < a.date := h2 ▸ hab
    rw [if_neg (ne_of_gt hca)]
    simpa using hca
  · rw [if_neg h1] at hab
    rw [if_neg h2] at hbc
    simp only [decide_eq_true_eq] at hab hbc
    have hca : c.date < a.date := lt_trans hbc hab
    rw [if_neg (ne_of_gt hca)]
    simpa using hca

/-- Totality of the report sort order. -/
theorem reportRowLe_total (a b : ReportRow) :
    (reportRowLe a b || reportRowLe b a) = true := by
  unfold reportRowLe
  by_cases h : a.date = b.date
  · rw [if_pos h, if_pos h.symm]
    rcases Nat.le_total a.expense_id b.expense_id with hle | hle <;> simp [hle]
  · rw [if_neg h, if_neg (Ne.symm h)]
    rcases lt_or_gt_of_ne h with hlt | hgt
    · simp [hlt]
    · simp [hgt]

/-- When every expense's category id resolves, the inner join keeps every
expense: one report row per expense. -/
theorem length_joinRowsAux (cats : List CategoryRow) (exps : List ExpenseRow)
    (h : ∀ e ∈ exps, ∃ c ∈ cats, c.category_id = e.category_id) :
    (joinRowsAux cats exps).length = exps.length := by
  induction exps with
  | nil => rfl
  | cons e es ih =>
    have hs : (cats.find? (fun c => c.category_id == e.category_id)).isSome := by
      rw [List.find?_isSome]
      obtain ⟨c, hc, hcc⟩ := h e (List.mem_cons_self e es)
      exact ⟨c, hc, by simpa using hcc⟩
    obtain ⟨c, hc⟩ := Option.isSome_iff_exists.mp hs
    have ih' := ih (fun x hx => h x (List.mem_cons_of_mem e hx))
    simp only [joinRowsAux, List.filterMap_cons] at ih' ⊢
    rw [hc]
    simp [ih']

/-- A store for the ordering witness: one category and three expenses
dated 2023-11-18, 2023-11-21, 2023-11-21, inserted in that order. -/
def orderingDB : DB :=
  ⟨some categoriesTableDef, some expensesTableDef,
   [⟨1, "Food"⟩],
   [⟨1, 8999 / 100, "2023-11-18", some "Internet and electric bill", 1⟩,
    ⟨2, 52 / 10, "2023-11-21", some "Daily train ticket", 1⟩,
    ⟨3, 15, "2023-11-21", some "Concert tickets", 1⟩],
   2, 4⟩

/-- Claim C6: `viewAllExpenses` returns exactly the expenses joined with
their category's current name (a permutation of the join; when every
expense's category resolves, one row per expense), arranged so that every
row is `reportRowLe`-before every later row — date descending and, for
equal dates, expense id descending, so among same-dated rows a
higher-identifier row never comes after a lower one. -/
theorem c6_view_all_expenses_sorted_join (db : DB) :
    (viewAllExpenses db).Perm (joinRows db) ∧
    (viewAllExpenses db).Pairwise (fun a b => reportRowLe a b = true) ∧
    ((∀ e ∈ db.expenses, ∃ c ∈ db.categories, c.category_id = e.category_id) →
      (viewAllExpenses db).length = db.expenses.length) := by
  refine ⟨List.mergeSort_perm _ _, ?_, ?_⟩
  · exact List.sorted_mergeSort reportRowLe_trans reportRowLe_total (joinRows db)
  · intro h
    rw [viewAllExpenses, List.length_mergeSort]
    exact length_joinRowsAux db.categories db.expenses h

/-- Witness for C6 at the three-expense store: every category resolves, so
the sorted report has exactly three rows. -/
theorem c6_view_all_expenses_sorted_join_witness :
    (∀ e ∈ orderingDB.expenses, ∃ c ∈ orderingDB.categories,
        c.category_id = e.category_id) ∧
    (viewAllExpenses orderingDB).length = orderingDB.expenses.length :=
  ⟨by decide, (c6_view_all_expenses_sorted_join orderingDB).2.2 (by decide)⟩

/-- Witness for C4: revising the sample store's expense 1 with only a new
amount of 30.75 changes just that amount; the category `"Food"` resolves
for the category-only clause. -/
theorem c4_partial_update_isolation_witness :
    ((∃ e ∈ sampleDB.expenses, e.expense_id = 1) ∧
     sampleDB.categories.find? (fun x => x.name == "Food") = some ⟨1, "Food"⟩) ∧
    reviseExpense 1 (some (123 / 4)) none none sampleDB =
      ⟨true,
       { sampleDB with
         expenses := sampleDB.expenses.map (fun e =>
           if e.expense_id == 1 then { e with amount := 123 / 4 } else e) },
       [Report.expenseRevised 1]⟩ :=
  ⟨⟨by decide, by decide⟩,
   (c4_partial_update_isolation sampleDB 1 (123 / 4) "x" "Food" ⟨1, "Food"⟩
     (by decide)).1⟩

end ExpenseManager
